import Mathlib

/-!
A shallow embedding of the gouidom shadow-tree engine.

Embedded from `vdom.go`, `element.go` and `events.go`.

Modelling conventions
* Go `string` is Lean `String`; byte-level functions (`fnv.New32a`) read the
  UTF-8 encoding of the string.
* `*js.Value` is `Option Handle`: `none` is the nil pointer, `some h` a live
  reference to a node of the rendering surface.
* `*Element` values handed to `AddElement` are records; the assignment
  `ele.ID = ...` of `verifyElementId` yields the updated record, and that
  updated record is what the store holds afterwards.
* `error` is `Option String`: `none` is `nil`, `some m` an error whose
  `Error()` text is `m`.
* A Go runtime panic (nil pointer dereference) is an explicit outcome.
* A nil `*js.Value` passed as an argument of `Call` is a panic as well: the
  argument conversion of `syscall/js` dereferences or rejects it.
* The rendering surface is external.  Every `Call` the code issues is appended
  to a log of calls; what the surface answers (whether a call yields JS `null`,
  and what `childElementCount` a node reports) is given by a `Host`, as a
  function of the calls issued so far.
* `sync.Mutex` is not modelled: the embedding is sequential.
-/

namespace Gouidom

/-! ## Data model (`element.go`, `vdom.go`) -/

/-- A live reference into the rendering surface (`js.Value`). -/
abbrev Handle := Nat

/-- Go's `error`: `none` is `nil`. -/
abbrev error := Option String

/-- Shadow record of one node (`type Element struct`).  The `Fulfillment`
callback is not read by any embedded function and is left out. -/
structure Element where
  ID : String
  Typ : String
  Text : String
  jsValue : Option Handle
  Parent : String
deriving DecidableEq

/-- One positional argument of a surface method call. -/
inductive JSParam where
  | ref (v : Option Handle)
  | str (s : String)
deriving DecidableEq

/-- Receiver of a surface method call: `jsMethodCall` replaces a nil receiver
by `js.Global().Get("document")`. -/
inductive JSRecv where
  | document
  | node (h : Handle)
deriving DecidableEq

/-- One `jsVal.Call(method, params...)` issued on the rendering surface. -/
structure JSCall where
  recv : JSRecv
  method : String
  params : List JSParam
deriving DecidableEq

/-- Answers of the rendering surface, as functions of the calls issued so far. -/
structure Host where
  childElementCount : List JSCall → Handle → Nat
  callReturnsNull : List JSCall → JSCall → Bool

/-- One entry written by the logger: a formatted `CLog` line, or the lines
of one `DumpVDOM` (one per entry of the dumped map, in map iteration order). -/
inductive LogEntry where
  | line (s : String)
  | dump (vd : String → Option Element)

/-- The engine state (`type VDOM struct`): the path-to-record map `vd`,
together with the calls issued on the surface and the logger output. -/
structure VDOM where
  vd : String → Option Element
  calls : List JSCall
  console : List LogEntry

/-- Result of running code that may panic. -/
inductive Outcome where
  | done (v : VDOM)
  | panicked (v : VDOM)

/-- State in which a run ended. -/
def Outcome.state : Outcome → VDOM
  | .done v => v
  | .panicked v => v

/-- Whether the run ended in a runtime panic. -/
def Outcome.isPanic : Outcome → Bool
  | .done _ => false
  | .panicked _ => true

/-! ## Go standard library: `hash/fnv`, `fmt`, `path` -/

/-- The bytes of a Go string (UTF-8). -/
def stringBytes (s : String) : List Nat :=
  (s.data.flatMap String.utf8EncodeChar).map UInt8.toNat

/-- Go `fnv.New32a()` followed by `Write(bs)` and `Sum32()`: 32-bit FNV-1a,
xor the byte in, then multiply by the prime modulo `2^32`. -/
def fnv32a (bs : List Nat) : Nat :=
  bs.foldl (fun h b => ((h ^^^ b) * 16777619) % 2 ^ 32) 2166136261

/-- Go `fmt.Sprint` / `%d` of a non-negative integer: its decimal digits. -/
def decimal (n : Nat) : String := Nat.repr n

/-- Split at every `'/'` (as `strings.Split(s, "/")`). -/
def splitSlash : List Char → List (List Char)
  | [] => [[]]
  | c :: cs =>
    if c = '/' then [] :: splitSlash cs
    else match splitSlash cs with
      | [] => [[c]]
      | s :: ss => (c :: s) :: ss

/-- Join path elements with `'/'`. -/
def joinSlash : List (List Char) → List Char
  | [] => []
  | [s] => s
  | s :: t :: ss => s ++ '/' :: joinSlash (t :: ss)

/-- One round of the main loop of Go's `path.Clean`, on the path element
`seg`; `out` holds the elements written so far, last written first.  An empty
element and `.` are dropped; `..` removes the last written element when there
is one that is not itself a leading `..` (the buffer is beyond `dotdot`),
is dropped on a rooted path, and is kept otherwise; any other element is
written. -/
def cleanStep (rooted : Bool) (out : List (List Char)) (seg : List Char) :
    List (List Char) :=
  if seg = [] then out
  else if seg = ['.'] then out
  else if seg = ['.', '.'] then
    match out with
    | top :: rest =>
      if top ≠ ['.', '.'] then rest
      else if rooted then out else seg :: out
    | [] => if rooted then out else seg :: out
  else seg :: out

/-- Go's `path.Clean` on the characters of a path: the empty path is `.`; the
elements are processed left to right by `cleanStep`; the result is the written
elements joined by single slashes, after a leading slash when the path is
rooted, and `.` when nothing was written. -/
def cleanChars (p : List Char) : List Char :=
  if p = [] then ['.']
  else
    let rooted := p.head? = some '/'
    let out := (splitSlash p).foldl (cleanStep rooted) []
    let body := joinSlash out.reverse
    if rooted then '/' :: body
    else if body = [] then ['.'] else body

/-- Go's `path.Clean`. -/
def pathClean (p : String) : String := String.mk (cleanChars p.data)

/-- Go's `path.Join(a, b)`: empty elements are ignored, the rest is joined by
slashes and cleaned; the result is empty only when both are empty. -/
def pathJoin (a b : String) : String :=
  if a = "" then (if b = "" then "" else pathClean b)
  else if b = "" then pathClean a
  else pathClean (a ++ "/" ++ b)

/-! ## `element.go` -/

/-- Function `newElementIDFromDOMPath` of `element.go`. -/
def newElementIDFromDOMPath (s : String) : String :=
  decimal (fnv32a (stringBytes s))

/-- Function `jsMethodCall`: issue the call (on `document` when the receiver
is nil); a JS `null` result is an error.  Returns the extended call log and
the error.  A nil `*js.Value` among the parameters makes `Call` panic while it
converts its arguments, before the call is issued: `none` is that panic. -/
def jsMethodCall (h : Host) (calls : List JSCall) (jsVal : Option Handle)
    (method : String) (params : List JSParam) : Option (List JSCall × error) :=
  if params.any (fun q => decide (q = JSParam.ref none)) then none
  else
    let c : JSCall :=
      { recv := match jsVal with
          | none => JSRecv.document
          | some j => JSRecv.node j
        method := method
        params := params }
    if h.callReturnsNull calls c then
      some (calls ++ [c], some "unexpectedNull: a null js value is not expected")
    else some (calls ++ [c], none)

/-- Method `Element.SetAttribute`: an error without a call when `jsValue` is
nil; `none` is a panic of `jsMethodCall`. -/
def SetAttribute (h : Host) (calls : List JSCall) (ele : Element)
    (name value : String) : Option (List JSCall × error) :=
  if ele.jsValue = none then
    some (calls, some "noExistingJSValue: existing js value requried to call this method")
  else jsMethodCall h calls ele.jsValue "setAttribute" [JSParam.str name, JSParam.str value]

/-- Method `Element.AppendChild` on a non-nil receiver `ele`; on a nil receiver
the method panics at `ele.jsValue`, before any call (see `addElementStep`).
The result `none` is a panic: the first call hands `child.jsValue` to
`jsMethodCall`, which panics when it is nil. -/
def AppendChild (h : Host) (calls : List JSCall) (ele child : Element) :
    Option (List JSCall × error) :=
  match jsMethodCall h calls ele.jsValue "appendChild" [JSParam.ref child.jsValue] with
  | none => none
  | some (c1, some err) => some (c1, some err)
  | some (c1, none) =>
    match SetAttribute h c1 child "id" child.ID with
    | none => none
    | some (c2, some err) => some (c2, some err)
    | some (c2, none) =>
      if ele.Text ≠ "" then
        match SetAttribute h c2 child "text" child.Text with
        | none => none
        | some (c3, some err) => some (c3, some err)
        | some (c3, none) => some (c3, none)
      else some (c2, none)

/-- Method `Element.nodeCount` through a possibly nil `*Element` with a possibly nil
`jsValue`; `none` is the nil-dereference panic. -/
def nodeCount (h : Host) (calls : List JSCall) (ele : Option Element) : Option Nat :=
  match ele with
  | none => none
  | some e =>
    match e.jsValue with
    | none => none
    | some j => some (h.childElementCount calls j)

/-! ## `vdom.go` -/

/-- Modelled from the spec: `CLog` is called by the source files but defined in
none of them; the spec describes it as diagnostic logging through a reporting
channel, so it appends the formatted line to the logger output. -/
def CLog (s : String) (v : VDOM) : VDOM :=
  { v with console := v.console ++ [LogEntry.line s] }

/-- Method `VDOM.DumpVDOM`: logs every entry of the map as it is at the call. -/
def DumpVDOM (v : VDOM) : VDOM :=
  { v with console := v.console ++ [LogEntry.dump v.vd] }

/-- Method `VDOM.elementExists`. -/
def elementExists (v : VDOM) (path : String) : error :=
  match v.vd path with
  | some val =>
    if val.jsValue ≠ none then none
    else some ("errJSValueNotFound:" ++ path)
  | none => some ("errNotFound:" ++ path)

/-- Method `VDOM.verifyElementId`: the record after the call (its `ID` may have been
assigned), the returned path and the returned error; `none` is a panic. -/
def verifyElementId (h : Host) (v : VDOM) (ele : Element) :
    Option (Element × String × error) :=
  match elementExists v ele.Parent with
  | some err => some (ele, "", some err)
  | none =>
    if ele.ID = "" then
      match nodeCount h v.calls (v.vd ele.Parent) with
      | none => none
      | some cn =>
        let ele1 := { ele with
          ID := newElementIDFromDOMPath (ele.Parent ++ "-" ++ decimal cn) }
        some (ele1, pathJoin ele1.Parent ele1.ID, none)
    else some (ele, pathJoin ele.Parent ele.ID, none)

/-- The assignment `v.vd[vPath] = ele`. -/
def setVD (v : VDOM) (vPath : String) (ele : Element) : VDOM :=
  { v with vd := fun k => if k = vPath then some ele else v.vd k }

/-- One iteration of the loop of `VDOM.AddElement`.  The record is written to
the map before the mirroring call; a panic of that call (nil parent record, or
nil handle of the record itself) leaves the state as it is after the write. -/
def addElementStep (h : Host) (v : VDOM) (ele : Element) : Outcome :=
  let p := v.vd ele.Parent
  match verifyElementId h v ele with
  | none => Outcome.panicked v
  | some (ele1, vPath, err) =>
    let v1 := match err with
      | some e => CLog ("errIDVerification:" ++ e) (DumpVDOM v)
      | none => v
    let v2 := setVD v1 vPath ele1
    if ¬ (ele1.ID = "head") ∧ ¬ (ele1.ID = "body") then
      match p with
      | none => Outcome.panicked v2
      | some pe =>
        match AppendChild h v2.calls pe ele1 with
        | none => Outcome.panicked v2
        | some (cs, some e) =>
          Outcome.done (CLog ("errAppendElement:" ++ e) { v2 with calls := cs })
        | some (cs, none) => Outcome.done { v2 with calls := cs }
    else Outcome.done v2

/-- Method `VDOM.AddElement(eles...)`: the records are processed in order; a
panic ends the call. -/
def AddElement (h : Host) (v : VDOM) : List Element → Outcome
  | [] => Outcome.done v
  | ele :: rest =>
    match addElementStep h v ele with
    | Outcome.panicked v1 => Outcome.panicked v1
    | Outcome.done v1 => AddElement h v1 rest

/-- The root record `NewApp` stores by hand; `g` is the `document` handle. -/
def rootElement (g : Handle) : Element :=
  { ID := "html", Typ := "html", Text := "", jsValue := some g, Parent := "" }

/-- The store right after `NewApp` has put the root at `"html"`. -/
def bootVDOM (g : Handle) : VDOM :=
  { vd := fun k => if k = "html" then some (rootElement g) else none
    calls := []
    console := [] }

/-- A surface on which no call returns `null` and every node reports `n`
children. -/
def constHost (n : Nat) : Host :=
  { childElementCount := fun _ _ => n
    callReturnsNull := fun _ _ => false }

/-- A surface that answers its first `n` calls with a non-null value and
returns `null` from every later call; every node reports 0 children. -/
def nullAfter (n : Nat) : Host :=
  { childElementCount := fun _ _ => 0
    callReturnsNull := fun cs _ => decide (n ≤ cs.length) }

/-- Stores reachable from the bootstrap store by calls of `AddElement`, with
any batch and any behaviour of the surface; the state a call leaves behind
counts whether the call returned or panicked. -/
inductive Reachable (g : Handle) : VDOM → Prop where
  | boot : Reachable g (bootVDOM g)
  | add (h : Host) (v : VDOM) (eles : List Element) :
      Reachable g v → Reachable g (AddElement h v eles).state

/-! ## `element.go`: `getVDOMPath` -/

/-- A JavaScript value as `getVDOMPath` inspects it: its `Type()`, and for an
object its `id` property (`none` when undefined) and its `parentNode`. -/
inductive JSVal where
  | undefined
  | null
  | object (id : Option String) (parentNode : JSVal)

/-- The first loop of `getVDOMPath`: append the `id` of `val` to `sa` and move
to `parentNode`, until the value is undefined or null or has no `id`. -/
def collectIds : JSVal → List String → List String
  | JSVal.undefined, sa => sa
  | JSVal.null, sa => sa
  | JSVal.object none _, sa => sa
  | JSVal.object (some i) parentNode, sa => collectIds parentNode (sa ++ [i])

/-- The assignment `sa[i], sa[opp] = sa[opp], sa[i]`. -/
def swapAt (sa : List String) (i opp : Nat) : List String :=
  (sa.set i (sa.getD opp "")).set opp (sa.getD i "")

/-- The rounds `i = k-1, k-2, ..., 0` of the reversing loop of `getVDOMPath`. -/
def reverseLoop : Nat → List String → List String
  | 0, sa => sa
  | k + 1, sa => reverseLoop k (swapAt sa k (sa.length - 1 - k))

/-- The loop `for i := len(sa)/2 - 1; i >= 0; i--`. -/
def reverseInPlace (sa : List String) : List String :=
  reverseLoop (sa.length / 2) sa

/-- Method `Element.getVDOMPath`, on the value `*ele.jsValue`. -/
def getVDOMPath (val : JSVal) : String :=
  String.intercalate "/" (reverseInPlace (collectIds val []))

/-- The chain of live nodes with the given ids, innermost first, whose
outermost node has `top` as its `parentNode`. -/
def chainOf : List String → JSVal → JSVal
  | [], top => top
  | i :: rest, top => JSVal.object (some i) (chainOf rest top)

/-- Values at which the ancestor walk stops: undefined, null, or an object
whose `id` is undefined. -/
def stopsWalk : JSVal → Bool
  | JSVal.undefined => true
  | JSVal.null => true
  | JSVal.object none _ => true
  | JSVal.object (some _) _ => false

/-! ## `events.go` -/

/-- The payload `jsCallbackData`. -/
structure jsCallbackData where
  this : Handle
  args : List Handle
deriving DecidableEq

/-- The router state `domEvent`: the channel `eventChan` as a queue, oldest
payload first. -/
structure domEvent where
  eventChan : List jsCallbackData
deriving DecidableEq

/-- The callback `newVDOMEvents` wraps with `js.FuncOf` and stores in
`dispatch`: its return value, and the router state after the invocation. -/
def dispatch (de : domEvent) (this : Handle) (args : List Handle) :
    jsCallbackData × domEvent :=
  ({ this := this, args := args }, de)

/-- Method `VDOM.newVDOMEvents`: the router state it creates (`make(chan ...)`). -/
def newVDOMEvents : domEvent := { eventChan := [] }

/-- The formatted `CLog` lines of a logger output, in order; the lines of a
`DumpVDOM` are left out. -/
def logLines : List LogEntry → List String
  | [] => []
  | LogEntry.line s :: rest => s :: logLines rest
  | LogEntry.dump _ :: rest => logLines rest

/-- A path element that `path.Clean` copies unchanged: not empty, not `.`
and not `..`. -/
def plainSeg (s : List Char) : Bool :=
  decide (s ≠ [] ∧ s ≠ ['.'] ∧ s ≠ ['.', '.'])

/-- A string all of whose slash-separated elements are plain: a relative
path without empty, `.` or `..` elements, such as `"html"` or `"html/17"`. -/
def plainPath (s : String) : Bool :=
  (splitSlash s.data).all plainSeg

/-! ## Lemmas on the path functions -/

theorem splitSlash_ne_nil (cs : List Char) : splitSlash cs ≠ [] := by
  cases cs with
  | nil => simp [splitSlash]
  | cons c cs =>
    unfold splitSlash
    split
    · simp
    · split <;> simp

theorem splitSlash_append (a b : List Char) :
    splitSlash (a ++ '/' :: b) = splitSlash a ++ splitSlash b := by
  induction a with
  | nil => simp [splitSlash]
  | cons c a ih =>
    by_cases hc : c = '/'
    · simp [splitSlash, hc, ih]
    · have hcons : (c :: a) ++ '/' :: b = c :: (a ++ '/' :: b) := rfl
      rw [hcons]
      simp only [splitSlash, hc, if_false]
      rw [ih]
      cases hs : splitSlash a with
      | nil => exact absurd hs (splitSlash_ne_nil a)
      | cons s ss => simp

theorem joinSlash_splitSlash (cs : List Char) : joinSlash (splitSlash cs) = cs := by
  induction cs with
  | nil => simp [splitSlash, joinSlash]
  | cons c cs ih =>
    by_cases hc : c = '/'
    · simp only [splitSlash, hc, if_true]
      cases hs : splitSlash cs with
      | nil => exact absurd hs (splitSlash_ne_nil cs)
      | cons s ss =>
        rw [hs] at ih
        simp [joinSlash, ih]
    · simp only [splitSlash, hc, if_false]
      cases hs : splitSlash cs with
      | nil => exact absurd hs (splitSlash_ne_nil cs)
      | cons s ss =>
        rw [hs] at ih
        cases ss with
        | nil => simpa [joinSlash] using ih
        | cons t ss => simpa [joinSlash] using ih

theorem splitSlash_no_slash (cs : List Char) (h : ∀ c ∈ cs, c ≠ '/') :
    splitSlash cs = [cs] := by
  induction cs with
  | nil => simp [splitSlash]
  | cons c cs ih =>
    have hc : c ≠ '/' := h c (by simp)
    have := ih (fun d hd => h d (by simp [hd]))
    simp [splitSlash, hc, this]

theorem foldl_cleanStep_plain (rooted : Bool) (segs acc : List (List Char))
    (h : ∀ s ∈ segs, plainSeg s = true) :
    segs.foldl (cleanStep rooted) acc = segs.reverse ++ acc := by
  induction segs generalizing acc with
  | nil => simp
  | cons s segs ih =>
    have hs : plainSeg s = true := h s (by simp)
    simp only [plainSeg, decide_eq_true_eq] at hs
    have hstep : cleanStep rooted acc s = s :: acc := by
      simp [cleanStep, hs.1, hs.2.1, hs.2.2]
    simp [List.foldl_cons, hstep, ih (s :: acc) (fun t ht => h t (by simp [ht]))]

theorem cleanChars_plain (p : List Char)
    (h : (splitSlash p).all plainSeg = true) : cleanChars p = p := by
  have hall : ∀ s ∈ splitSlash p, plainSeg s = true := by
    simpa [List.all_eq_true] using h
  have hne : p ≠ [] := by
    rintro rfl
    have := hall [] (by simp [splitSlash])
    simp [plainSeg] at this
  have hroot : ¬ (p.head? = some '/') := by
    intro hh
    cases p with
    | nil => exact hne rfl
    | cons c cs =>
      have hc : c = '/' := by simpa using hh
      have := hall [] (by simp [splitSlash, hc])
      simp [plainSeg] at this
  simp only [cleanChars, hne, if_false, hroot, decide_False, Bool.false_eq_true]
  rw [foldl_cleanStep_plain false _ _ hall]
  simp [joinSlash_splitSlash, hne]

theorem plainPath_ne_empty (s : String) (h : plainPath s = true) : s ≠ "" := by
  rintro rfl
  revert h
  decide

theorem pathJoin_plain (a b : String) (ha : plainPath a = true)
    (hb : plainPath b = true) : pathJoin a b = a ++ "/" ++ b := by
  have hane := plainPath_ne_empty a ha
  have hbne := plainPath_ne_empty b hb
  have hd : (a ++ "/" ++ b).data = a.data ++ '/' :: b.data := by
    simp [String.data_append]
  have hsplit : (splitSlash (a ++ "/" ++ b).data).all plainSeg = true := by
    rw [hd, splitSlash_append, List.all_append]
    simp only [plainPath] at ha hb
    simp [ha, hb]
  simp only [pathJoin, hane, hbne, if_false, pathClean]
  rw [cleanChars_plain _ hsplit]

/-! ## Lemmas on decimal rendering -/

theorem digitChar_plain (m : Nat) (hm : m < 10) :
    Nat.digitChar m ≠ '/' ∧ Nat.digitChar m ≠ '.' := by
  interval_cases m <;> decide

theorem toDigitsCore_plain (f : Nat) : ∀ (n : Nat) (ds : List Char),
    (∀ c ∈ ds, c ≠ '/' ∧ c ≠ '.') →
    ∀ c ∈ Nat.toDigitsCore 10 f n ds, c ≠ '/' ∧ c ≠ '.' := by
  induction f with
  | zero => intro n ds hds c hc; exact hds c (by simpa [Nat.toDigitsCore] using hc)
  | succ f ih =>
    intro n ds hds c hc
    have hd := digitChar_plain (n % 10) (Nat.mod_lt _ (by decide))
    have hds1 : ∀ c ∈ Nat.digitChar (n % 10) :: ds, c ≠ '/' ∧ c ≠ '.' := by
      intro c hc
      rcases List.mem_cons.1 hc with rfl | h
      · exact hd
      · exact hds c h
    simp only [Nat.toDigitsCore] at hc
    split at hc
    · exact hds1 c hc
    · exact ih _ _ hds1 c hc

theorem toDigitsCore_ne_nil (f : Nat) : ∀ (n : Nat) (ds : List Char),
    ds ≠ [] → Nat.toDigitsCore 10 f n ds ≠ [] := by
  induction f with
  | zero => intro n ds hds; simpa [Nat.toDigitsCore] using hds
  | succ f ih =>
    intro n ds _
    simp only [Nat.toDigitsCore]
    split
    · simp
    · exact ih _ _ (by simp)

theorem decimal_chars (n : Nat) : ∀ c ∈ (decimal n).data, c ≠ '/' ∧ c ≠ '.' := by
  simp only [decimal, Nat.repr, Nat.toDigits, List.asString]
  exact toDigitsCore_plain _ _ _ (by simp)

theorem decimal_data_ne_nil (n : Nat) : (decimal n).data ≠ [] := by
  simp only [decimal, Nat.repr, Nat.toDigits, List.asString, Nat.toDigitsCore]
  split
  · simp
  · exact toDigitsCore_ne_nil _ _ _ (by simp)

theorem decimal_ne_empty (n : Nat) : decimal n ≠ "" := by
  intro h
  exact decimal_data_ne_nil n (by rw [h])

theorem plainPath_decimal (n : Nat) : plainPath (decimal n) = true := by
  have hc := decimal_chars n
  have hne := decimal_data_ne_nil n
  simp only [plainPath]
  rw [splitSlash_no_slash _ (fun c h => (hc c h).1)]
  simp only [List.all_cons, List.all_nil, Bool.and_true, plainSeg, decide_eq_true_eq]
  refine ⟨hne, ?_, ?_⟩
  · intro h
    exact (hc '.' (by rw [h]; simp)).2 rfl
  · intro h
    exact (hc '.' (by rw [h]; simp)).2 rfl

/-! ## `getVDOMPath` -/

theorem getD_append_cons (xs zs : List String) (a d : String) :
    (xs ++ a :: zs).getD xs.length d = a := by
  induction xs with
  | nil => simp
  | cons x xs ih => simpa using ih

theorem set_append_cons (xs zs : List String) (a b : String) :
    (xs ++ a :: zs).set xs.length b = xs ++ b :: zs := by
  induction xs with
  | nil => simp
  | cons x xs ih => simp

theorem swapAt_ends (xs mid ys : List String) (x y : String)
    (hlen : ys.length = xs.length) :
    swapAt (xs ++ x :: (mid ++ y :: ys)) xs.length
        ((xs ++ x :: (mid ++ y :: ys)).length - 1 - xs.length)
      = xs ++ y :: (mid ++ x :: ys) := by
  have hidx : (xs ++ x :: (mid ++ y :: ys)).length - 1 - xs.length
      = (xs ++ x :: mid).length := by
    simp only [List.length_append, List.length_cons]
    omega
  rw [hidx]
  have e1 : xs ++ x :: (mid ++ y :: ys) = (xs ++ x :: mid) ++ y :: ys := by simp
  unfold swapAt
  rw [getD_append_cons xs (mid ++ y :: ys) x ""]
  conv_lhs => rw [e1, getD_append_cons (xs ++ x :: mid) ys y ""]
  have e2 : (xs ++ x :: mid ++ y :: ys) = xs ++ x :: (mid ++ y :: ys) := by simp
  rw [e2, set_append_cons xs (mid ++ y :: ys) x y]
  have e3 : xs ++ y :: (mid ++ y :: ys) = (xs ++ y :: mid) ++ y :: ys := by simp
  have e4 : (xs ++ x :: mid).length = (xs ++ y :: mid).length := by simp
  rw [e3, e4, set_append_cons (xs ++ y :: mid) ys y x]
  simp

theorem reverseLoop_ends (k : Nat) : ∀ (xs mid ys : List String),
    xs.length = k → ys.length = k →
    reverseLoop k (xs ++ mid ++ ys) = ys.reverse ++ mid ++ xs.reverse := by
  induction k with
  | zero =>
    intro xs mid ys hx hy
    have hx0 : xs = [] := List.length_eq_zero.1 hx
    have hy0 : ys = [] := List.length_eq_zero.1 hy
    subst hx0 hy0
    simp [reverseLoop]
  | succ k ih =>
    intro xs mid ys hx hy
    rcases List.eq_nil_or_concat xs with hnil | ⟨xs1, x, hxs⟩
    · subst hnil; simp at hx
    · cases ys with
      | nil => simp at hy
      | cons y ys1 =>
        subst hxs
        simp only [List.concat_eq_append] at hx ⊢
        have hx1 : xs1.length = k := by simpa using hx
        have hy1 : ys1.length = k := by simpa using hy
        have e1 : xs1 ++ [x] ++ mid ++ y :: ys1 = xs1 ++ x :: (mid ++ y :: ys1) := by simp
        rw [e1]
        simp only [reverseLoop]
        have hsw := swapAt_ends xs1 mid ys1 x y (by omega)
        rw [hx1] at hsw
        rw [hsw]
        have e2 : xs1 ++ y :: (mid ++ x :: ys1) = xs1 ++ (y :: (mid ++ [x])) ++ ys1 := by simp
        rw [e2, ih xs1 (y :: (mid ++ [x])) ys1 hx1 hy1]
        simp

theorem reverseInPlace_parts (xs mid ys : List String)
    (hlen : ys.length = xs.length) (hmid : mid.length ≤ 1) :
    reverseInPlace (xs ++ mid ++ ys) = (xs ++ mid ++ ys).reverse := by
  have hk : (xs ++ mid ++ ys).length / 2 = xs.length := by
    simp only [List.length_append]
    omega
  have hmidrev : mid.reverse = mid := by
    match mid, hmid with
    | [], _ => rfl
    | [_], _ => rfl
    | _ :: _ :: _, h => simp at h
  unfold reverseInPlace
  rw [hk, reverseLoop_ends xs.length xs mid ys rfl hlen]
  rw [List.reverse_append, List.reverse_append, hmidrev, List.append_assoc]

theorem reverseInPlace_eq_reverse (sa : List String) : reverseInPlace sa = sa.reverse := by
  have hdecomp : sa.take (sa.length / 2)
      ++ (sa.drop (sa.length / 2)).take (sa.length - 2 * (sa.length / 2))
      ++ (sa.drop (sa.length / 2)).drop (sa.length - 2 * (sa.length / 2)) = sa := by
    rw [List.append_assoc, List.take_append_drop, List.take_append_drop]
  have hparts := reverseInPlace_parts (sa.take (sa.length / 2))
    ((sa.drop (sa.length / 2)).take (sa.length - 2 * (sa.length / 2)))
    ((sa.drop (sa.length / 2)).drop (sa.length - 2 * (sa.length / 2)))
    (by simp only [List.length_take, List.length_drop]; omega)
    (by simp only [List.length_take, List.length_drop]; omega)
  rw [hdecomp] at hparts
  exact hparts

theorem collectIds_chainOf (ids : List String) : ∀ (top : JSVal) (sa : List String),
    stopsWalk top = true → collectIds (chainOf ids top) sa = sa ++ ids := by
  induction ids with
  | nil =>
    intro top sa h
    cases top with
    | undefined => simp [chainOf, collectIds]
    | null => simp [chainOf, collectIds]
    | object id parentNode =>
      cases id with
      | none => simp [chainOf, collectIds]
      | some i => simp [stopsWalk] at h
  | cons i ids ih =>
    intro top sa h
    simp [chainOf, collectIds, ih top (sa ++ [i]) h]

/-- C10: for a live node whose ancestry carries the ids `ids` (the node itself
first, outermost last) and ends at a value that is undefined, null or without
an `id`, `getVDOMPath` (a total function) returns the ids in outermost-first
order joined by `"/"`; and the in-place swap loop reverses every list,
whatever its length. -/
theorem getVDOMPath_chainOf (ids : List String) (top : JSVal)
    (htop : stopsWalk top = true) :
    getVDOMPath (chainOf ids top) = String.intercalate "/" ids.reverse
      ∧ ∀ sa : List String, reverseInPlace sa = sa.reverse := by
  refine ⟨?_, reverseInPlace_eq_reverse⟩
  unfold getVDOMPath
  rw [collectIds_chainOf ids top [] htop, reverseInPlace_eq_reverse]
  simp

/-- Concrete instance: the chain `c`, `b`, `a` ending at null. -/
theorem getVDOMPath_chainOf_witness :
    stopsWalk JSVal.null = true
      ∧ (getVDOMPath (chainOf ["c", "b", "a"] JSVal.null)
            = String.intercalate "/" ["c", "b", "a"].reverse
          ∧ ∀ sa : List String, reverseInPlace sa = sa.reverse) :=
  ⟨rfl, getVDOMPath_chainOf ["c", "b", "a"] JSVal.null rfl⟩

/-! ## `elementExists` -/

theorem errJSValueNotFound_ne_errNotFound (p q : String) :
    "errJSValueNotFound:" ++ p ≠ "errNotFound:" ++ q := by
  intro h
  have hd := congrArg String.data h
  simp [String.data_append] at hd

/-- C3: `elementExists` has exactly three outcomes, each decided by the store
alone: `nil` exactly when the path is a key whose record has a non-nil
`jsValue`; the error `errJSValueNotFound:<path>` exactly when the path is a key
whose record has a nil `jsValue`; the error `errNotFound:<path>` exactly when
the path is not a key.  The function returns the error only: it has no way to
change the store. -/
theorem elementExists_outcomes (v : VDOM) (path : String) :
    (elementExists v path = none
        ↔ ∃ e, v.vd path = some e ∧ e.jsValue ≠ none)
      ∧ (elementExists v path = some ("errJSValueNotFound:" ++ path)
        ↔ ∃ e, v.vd path = some e ∧ e.jsValue = none)
      ∧ (elementExists v path = some ("errNotFound:" ++ path)
        ↔ v.vd path = none) := by
  have hne := errJSValueNotFound_ne_errNotFound path path
  unfold elementExists
  cases hv : v.vd path with
  | none => simp [Ne.symm hne]
  | some e =>
    by_cases hj : e.jsValue = none
    · simp [hj, hne]
    · simp [hj]

/-! ## The event callback -/

/-- C8 (evaluation of the code): an invocation of the dispatch callback
packages `(this, args)` and hands the payload back as its return value; the
event channel holds after the call exactly what it held before, so the payload
is not appended to it. -/
theorem dispatch_returns_payload_channel_unchanged :
    (∀ (de : domEvent) (this : Handle) (args : List Handle),
        (dispatch de this args).1 = { this := this, args := args }
          ∧ (dispatch de this args).2.eventChan = de.eventChan)
      ∧ (dispatch newVDOMEvents 7 [8, 9]).2.eventChan = []
      ∧ (dispatch newVDOMEvents 7 [8, 9]).2.eventChan
          ≠ newVDOMEvents.eventChan ++ [{ this := 7, args := [8, 9] }] := by
  refine ⟨fun de this args => ⟨rfl, rfl⟩, rfl, ?_⟩
  decide

/-! ## `AppendChild` -/

theorem AppendChild_live (h : Host) (calls : List JSCall) (ele child : Element)
    (p c : Handle) (hp : ele.jsValue = some p) (hc : child.jsValue = some c)
    (hok : ∀ cs call, h.callReturnsNull cs call = false) :
    AppendChild h calls ele child
      = some (calls
          ++ [ { recv := JSRecv.node p, method := "appendChild",
                 params := [JSParam.ref (some c)] },
               { recv := JSRecv.node c, method := "setAttribute",
                 params := [JSParam.str "id", JSParam.str child.ID] } ]
          ++ (if ele.Text ≠ "" then
                [ { recv := JSRecv.node c, method := "setAttribute",
                    params := [JSParam.str "text", JSParam.str child.Text] } ]
              else []),
         none) := by
  by_cases ht : ele.Text = ""
  · simp [AppendChild, SetAttribute, jsMethodCall, hp, hc, hok, ht]
  · simp [AppendChild, SetAttribute, jsMethodCall, hp, hc, hok, ht]

/-- C9 (as stated, refuted): with parent text `"hello"` and child text `"bye"`
the third call sets the child's `"text"` attribute to `"bye"`, the child's own
text; no call carries the parent's text. -/
theorem AppendChild_text_value_is_the_childs :
    AppendChild (constHost 0) []
        { ID := "p", Typ := "div", Text := "hello", jsValue := some 1, Parent := "html" }
        { ID := "c", Typ := "span", Text := "bye", jsValue := some 2, Parent := "html/p" }
      = some
        ([ { recv := JSRecv.node 1, method := "appendChild",
             params := [JSParam.ref (some 2)] },
           { recv := JSRecv.node 2, method := "setAttribute",
             params := [JSParam.str "id", JSParam.str "c"] },
           { recv := JSRecv.node 2, method := "setAttribute",
             params := [JSParam.str "text", JSParam.str "bye"] } ], none)
      ∧ ({ recv := JSRecv.node 2, method := "setAttribute",
           params := [JSParam.str "text", JSParam.str "hello"] } : JSCall)
        ∉ [ ({ recv := JSRecv.node 1, method := "appendChild",
               params := [JSParam.ref (some 2)] } : JSCall),
            { recv := JSRecv.node 2, method := "setAttribute",
              params := [JSParam.str "id", JSParam.str "c"] },
            { recv := JSRecv.node 2, method := "setAttribute",
              params := [JSParam.str "text", JSParam.str "bye"] } ] := by
  decide

/-- C9 (amended): on a surface whose calls all succeed, for a parent and a
child with live handles, `parent.AppendChild(child)` issues
`appendChild(parent handle, child handle)`, then sets the child's `"id"`
attribute to `child.ID`, and then sets the child's `"text"` attribute if and
only if the parent's `Text` is non-empty, the value being the child's own
`Text`; it returns no error.  When the parent's `Text` is empty no text call
is made. -/
theorem AppendChild_calls (h : Host) (calls : List JSCall) (ele child : Element)
    (p c : Handle) (hp : ele.jsValue = some p) (hc : child.jsValue = some c)
    (hok : ∀ cs call, h.callReturnsNull cs call = false) :
    AppendChild h calls ele child
      = some (calls
          ++ [ { recv := JSRecv.node p, method := "appendChild",
                 params := [JSParam.ref (some c)] },
               { recv := JSRecv.node c, method := "setAttribute",
                 params := [JSParam.str "id", JSParam.str child.ID] } ]
          ++ (if ele.Text ≠ "" then
                [ { recv := JSRecv.node c, method := "setAttribute",
                    params := [JSParam.str "text", JSParam.str child.Text] } ]
              else []),
         none) :=
  AppendChild_live h calls ele child p c hp hc hok

/-- Concrete instance: the root as parent, a child with handle 2. -/
theorem AppendChild_calls_witness :
    (rootElement 0).jsValue = some 0
      ∧ (Element.mk "c" "span" "bye" (some 2) "html").jsValue = some 2
      ∧ (∀ cs call, (constHost 0).callReturnsNull cs call = false)
      ∧ AppendChild (constHost 0) [] (rootElement 0) (Element.mk "c" "span" "bye" (some 2) "html")
        = some ([]
            ++ [ { recv := JSRecv.node 0, method := "appendChild",
                   params := [JSParam.ref (some 2)] },
                 { recv := JSRecv.node 2, method := "setAttribute",
                   params := [JSParam.str "id",
                     JSParam.str (Element.mk "c" "span" "bye" (some 2) "html").ID] } ]
            ++ (if (rootElement 0).Text ≠ "" then
                  [ { recv := JSRecv.node 2, method := "setAttribute",
                      params := [JSParam.str "text",
                        JSParam.str (Element.mk "c" "span" "bye" (some 2) "html").Text] } ]
                else []),
           none) :=
  ⟨rfl, rfl, fun _ _ => rfl,
    AppendChild_calls (constHost 0) [] (rootElement 0)
      (Element.mk "c" "span" "bye" (some 2) "html") 0 2 rfl rfl (fun _ _ => rfl)⟩

/-! ## `verifyElementId` and `AddElement` -/

theorem verifyElementId_live (h : Host) (v : VDOM) (ele pe : Element) (j : Handle)
    (hp : v.vd ele.Parent = some pe) (hj : pe.jsValue = some j) :
    verifyElementId h v ele
      = some (
          (if ele.ID = "" then
            { ele with
              ID := newElementIDFromDOMPath
                (ele.Parent ++ "-" ++ decimal (h.childElementCount v.calls j)) }
           else ele),
          pathJoin ele.Parent
            (if ele.ID = "" then
              newElementIDFromDOMPath
                (ele.Parent ++ "-" ++ decimal (h.childElementCount v.calls j))
             else ele.ID),
          none) := by
  by_cases hid : ele.ID = ""
  · simp [verifyElementId, elementExists, nodeCount, hp, hj, hid]
  · simp [verifyElementId, elementExists, nodeCount, hp, hj, hid]

theorem verifyElementId_assigned (h : Host) (v : VDOM) (ele pe ele1 : Element)
    (j : Handle) (hp : v.vd ele.Parent = some pe) (hj : pe.jsValue = some j)
    (h1 : ele1 = if ele.ID = "" then
            { ele with
              ID := newElementIDFromDOMPath
                (ele.Parent ++ "-" ++ decimal (h.childElementCount v.calls j)) }
          else ele) :
    verifyElementId h v ele = some (ele1, pathJoin ele.Parent ele1.ID, none) := by
  have hv := verifyElementId_live h v ele pe j hp hj
  have hid1 : (if ele.ID = "" then
      newElementIDFromDOMPath
        (ele.Parent ++ "-" ++ decimal (h.childElementCount v.calls j))
      else ele.ID) = ele1.ID := by
    rw [h1]; split <;> rfl
  rw [hid1, ← h1] at hv
  exact hv

theorem verifyElementId_path (h : Host) (v : VDOM) (ele ele1 : Element)
    (p : String) (err : error)
    (hv : verifyElementId h v ele = some (ele1, p, err)) :
    p = "" ∨ p = pathJoin ele1.Parent ele1.ID := by
  unfold verifyElementId at hv
  split at hv
  · simp only [Option.some.injEq, Prod.mk.injEq] at hv
    exact Or.inl hv.2.1.symm
  · split at hv
    · split at hv
      · simp at hv
      · simp only [Option.some.injEq, Prod.mk.injEq] at hv
        obtain ⟨h1, h2, _⟩ := hv
        subst h1
        exact Or.inr h2.symm
    · simp only [Option.some.injEq, Prod.mk.injEq] at hv
      obtain ⟨h1, h2, _⟩ := hv
      subst h1
      exact Or.inr h2.symm

theorem addElementStep_vd (h : Host) (v : VDOM) (ele : Element) :
    (addElementStep h v ele).state.vd = v.vd
      ∨ ∃ ele1 p, (p = "" ∨ p = pathJoin ele1.Parent ele1.ID)
          ∧ (addElementStep h v ele).state.vd
              = fun k => if k = p then some ele1 else v.vd k := by
  unfold addElementStep
  cases hv : verifyElementId h v ele with
  | none => exact Or.inl rfl
  | some res =>
    obtain ⟨ele1, p, err⟩ := res
    refine Or.inr ⟨ele1, p, verifyElementId_path h v ele ele1 p err hv, ?_⟩
    cases err <;> simp only [] <;> split <;> try split
    all_goals first
      | rfl
      | (split <;> rfl)

theorem AppendChild_nil_child (h : Host) (calls : List JSCall) (ele child : Element)
    (hc : child.jsValue = none) : AppendChild h calls ele child = none := by
  simp [AppendChild, jsMethodCall, hc]

theorem jsMethodCall_isSome (h : Host) (calls : List JSCall) (jsVal : Option Handle)
    (method : String) (params : List JSParam)
    (hq : params.any (fun q => decide (q = JSParam.ref none)) = false) :
    ∃ r, jsMethodCall h calls jsVal method params = some r := by
  unfold jsMethodCall
  rw [hq]
  simp only [Bool.false_eq_true, if_false]
  split
  · exact ⟨_, rfl⟩
  · exact ⟨_, rfl⟩

theorem SetAttribute_isSome (h : Host) (calls : List JSCall) (ele : Element)
    (name value : String) : ∃ r, SetAttribute h calls ele name value = some r := by
  unfold SetAttribute
  split
  · exact ⟨_, rfl⟩
  · exact jsMethodCall_isSome h calls ele.jsValue "setAttribute" _ (by simp)

theorem AppendChild_live_child (h : Host) (calls : List JSCall) (ele child : Element)
    (c : Handle) (hc : child.jsValue = some c) :
    ∃ r, AppendChild h calls ele child = some r := by
  unfold AppendChild
  obtain ⟨⟨c1, e1⟩, hr1⟩ := jsMethodCall_isSome h calls ele.jsValue "appendChild"
    [JSParam.ref child.jsValue] (by simp [hc])
  rw [hr1]
  cases e1 with
  | some err => exact ⟨_, rfl⟩
  | none =>
    simp only []
    obtain ⟨⟨c2, e2⟩, hr2⟩ := SetAttribute_isSome h c1 child "id" child.ID
    rw [hr2]
    cases e2 with
    | some err => exact ⟨_, rfl⟩
    | none =>
      simp only []
      split
      · obtain ⟨⟨c3, e3⟩, hr3⟩ := SetAttribute_isSome h c2 child "text" child.Text
        rw [hr3]
        cases e3 with
        | some err => exact ⟨_, rfl⟩
        | none => exact ⟨_, rfl⟩
      · exact ⟨_, rfl⟩

theorem AddElement_single (h : Host) (v : VDOM) (ele : Element) :
    AddElement h v [ele] = addElementStep h v ele := by
  unfold AddElement
  cases addElementStep h v ele with
  | done v1 => simp [AddElement]
  | panicked v1 => rfl

theorem addElementStep_live (h : Host) (v : VDOM) (ele pe ele1 : Element) (j : Handle)
    (hp : v.vd ele.Parent = some pe) (hj : pe.jsValue = some j)
    (h1 : ele1 = if ele.ID = "" then
            { ele with
              ID := newElementIDFromDOMPath
                (ele.Parent ++ "-" ++ decimal (h.childElementCount v.calls j)) }
          else ele) :
    (addElementStep h v ele).state.vd
        = (fun k => if k = pathJoin ele.Parent ele1.ID then some ele1 else v.vd k)
      ∧ ((addElementStep h v ele).state.console = v.console
          ∨ ∃ e, (addElementStep h v ele).state.console
              = v.console ++ [LogEntry.line ("errAppendElement:" ++ e)])
      ∧ ((∀ cs call, h.callReturnsNull cs call = false)
          → (addElementStep h v ele).state.console = v.console)
      ∧ ((ele1.ID = "head" ∨ ele1.ID = "body" ∨ ele.jsValue ≠ none)
          → ∃ v1, addElementStep h v ele = Outcome.done v1) := by
  have hv := verifyElementId_live h v ele pe j hp hj
  have hid1 : (if ele.ID = "" then
      newElementIDFromDOMPath
        (ele.Parent ++ "-" ++ decimal (h.childElementCount v.calls j))
      else ele.ID) = ele1.ID := by
    rw [h1]; split <;> rfl
  have hjs : ele1.jsValue = ele.jsValue := by
    rw [h1]; split <;> rfl
  rw [hid1, ← h1] at hv
  unfold addElementStep
  rw [hv, hp]
  simp only []
  by_cases hhb : ¬ (ele1.ID = "head") ∧ ¬ (ele1.ID = "body")
  · rw [if_pos hhb]
    cases hac : AppendChild h (setVD v (pathJoin ele.Parent ele1.ID) ele1).calls pe ele1 with
    | none =>
      refine ⟨rfl, Or.inl rfl, fun _ => rfl, ?_⟩
      rintro (hh | hb | hlive)
      · exact absurd hh hhb.1
      · exact absurd hb hhb.2
      · obtain ⟨c, hc⟩ := Option.ne_none_iff_exists'.1 (hjs ▸ hlive)
        obtain ⟨r, hr⟩ := AppendChild_live_child h
          (setVD v (pathJoin ele.Parent ele1.ID) ele1).calls pe ele1 c hc
        rw [hr] at hac
        exact absurd hac (by simp)
    | some res =>
      obtain ⟨cs, aerr⟩ := res
      cases aerr with
      | none => exact ⟨rfl, Or.inl rfl, fun _ => rfl, fun _ => ⟨_, rfl⟩⟩
      | some e =>
        refine ⟨rfl, Or.inr ⟨e, rfl⟩, ?_, fun _ => ⟨_, rfl⟩⟩
        intro hok
        exfalso
        cases hc : ele1.jsValue with
        | none =>
          rw [AppendChild_nil_child h _ pe ele1 hc] at hac
          exact absurd hac (by simp)
        | some c =>
          rw [AppendChild_live h _ pe ele1 j c hj hc hok] at hac
          simp at hac
  · rw [if_neg hhb]
    exact ⟨rfl, Or.inl rfl, fun _ => rfl, fun _ => ⟨_, rfl⟩⟩

theorem addElementStep_keys (h : Host) (v : VDOM) (ele : Element)
    (hinv : ∀ k r, v.vd k = some r → k ≠ "" → k = pathJoin r.Parent r.ID) :
    ∀ k r, (addElementStep h v ele).state.vd k = some r → k ≠ ""
      → k = pathJoin r.Parent r.ID := by
  intro k r hk hne
  rcases addElementStep_vd h v ele with hsame | ⟨ele1, p, hp, hvd⟩
  · rw [hsame] at hk
    exact hinv k r hk hne
  · rw [hvd] at hk
    simp only [] at hk
    by_cases hkp : k = p
    · rw [if_pos hkp] at hk
      have hr : ele1 = r := Option.some.inj hk
      subst hr
      rcases hp with hp | hp
      · exact absurd (hkp.trans hp) hne
      · exact hkp.trans hp
    · rw [if_neg hkp] at hk
      exact hinv k r hk hne

theorem AddElement_keys (h : Host) (eles : List Element) : ∀ v : VDOM,
    (∀ k r, v.vd k = some r → k ≠ "" → k = pathJoin r.Parent r.ID) →
    ∀ k r, (AddElement h v eles).state.vd k = some r → k ≠ ""
      → k = pathJoin r.Parent r.ID := by
  induction eles with
  | nil => intro v hinv; simpa [AddElement, Outcome.state] using hinv
  | cons ele rest ih =>
    intro v hinv
    have hstep := addElementStep_keys h v ele hinv
    unfold AddElement
    cases hs : addElementStep h v ele with
    | panicked v1 =>
      rw [hs] at hstep
      simpa [Outcome.state] using hstep
    | done v1 =>
      rw [hs] at hstep
      exact ih v1 (by simpa [Outcome.state] using hstep)

theorem bootVDOM_keys (g : Handle) :
    ∀ k r, (bootVDOM g).vd k = some r → k ≠ "" → k = pathJoin r.Parent r.ID := by
  intro k r hk _
  simp only [bootVDOM] at hk
  by_cases hkh : k = "html"
  · rw [if_pos hkh] at hk
    have hr : rootElement g = r := Option.some.inj hk
    subst hr
    rw [hkh]
    show "html" = pathJoin "" "html"
    decide
  · rw [if_neg hkh] at hk
    exact absurd hk (by simp)

theorem Reachable_keys (g : Handle) (v : VDOM) (hr : Reachable g v) :
    ∀ k r, v.vd k = some r → k ≠ "" → k = pathJoin r.Parent r.ID := by
  induction hr with
  | boot => exact bootVDOM_keys g
  | add h v eles _ ih => exact AddElement_keys h eles v ih

/-! ## Partial failure of a batch -/

theorem verifyElementId_failed (h : Host) (v : VDOM) (ele : Element) (err : String)
    (he : elementExists v ele.Parent = some err) :
    verifyElementId h v ele = some (ele, "", some err) := by
  simp [verifyElementId, he]

theorem addElementStep_failed_parent (h : Host) (v : VDOM) (ele : Element)
    (err : String) (he : elementExists v ele.Parent = some err) :
    (addElementStep h v ele).state.vd = fun k => if k = "" then some ele else v.vd k := by
  unfold addElementStep
  rw [verifyElementId_failed h v ele err he]
  simp only []
  split
  · split
    · rfl
    · split <;> rfl
  · rfl

theorem AddElement_absent_parent_panics (h : Host) (v : VDOM) (ele : Element)
    (rest : List Element) (hp : v.vd ele.Parent = none)
    (hh : ele.ID ≠ "head") (hb : ele.ID ≠ "body") :
    (AddElement h v (ele :: rest)).isPanic = true := by
  have he : elementExists v ele.Parent = some ("errNotFound:" ++ ele.Parent) := by
    simp [elementExists, hp]
  simp [AddElement, addElementStep, verifyElementId_failed h v ele _ he, hp, hh, hb,
    Outcome.isPanic]

/-- C1 (evaluation of the code): on the store holding only the live root, the
batch `[a, x, c]` in which only `x` names a parent (`"nope"`) that is not in
the store ends in a runtime panic while `x` is processed: `x` has by then been
stored under the empty key, and `c`, which comes after `x` and has the live
root as parent, is never committed. -/
theorem AddElement_missing_parent_panics :
    elementExists (bootVDOM 0) "html" = none
      ∧ (bootVDOM 0).vd "nope" = none
      ∧ (AddElement (constHost 0) (bootVDOM 0)
          [ Element.mk "a" "div" "" (some 1) "html",
            Element.mk "x" "div" "" (some 2) "nope",
            Element.mk "c" "div" "" (some 3) "html" ]).isPanic = true
      ∧ (AddElement (constHost 0) (bootVDOM 0)
          [ Element.mk "a" "div" "" (some 1) "html",
            Element.mk "x" "div" "" (some 2) "nope",
            Element.mk "c" "div" "" (some 3) "html" ]).state.vd "html/a"
          = some (Element.mk "a" "div" "" (some 1) "html")
      ∧ (AddElement (constHost 0) (bootVDOM 0)
          [ Element.mk "a" "div" "" (some 1) "html",
            Element.mk "x" "div" "" (some 2) "nope",
            Element.mk "c" "div" "" (some 3) "html" ]).state.vd "html/c" = none
      ∧ (AddElement (constHost 0) (bootVDOM 0)
          [ Element.mk "a" "div" "" (some 1) "html",
            Element.mk "x" "div" "" (some 2) "nope",
            Element.mk "c" "div" "" (some 3) "html" ]).state.vd ""
          = some (Element.mk "x" "div" "" (some 2) "nope") := by
  decide

/-- C2 (evaluation of the code): a record whose parent fails `elementExists`
is not aborted.  With the parent path absent, the record `head` is stored
under the empty key, which was not a key before.  With the parent present but
without a live handle (`"html/head"`, a `head` record that has no handle), the
record `x` is stored under the empty key and the mirroring calls are issued
for it, `appendChild` going to `document`. -/
theorem AddElement_failed_parent_is_committed :
    elementExists (bootVDOM 0) "nope" = some "errNotFound:nope"
      ∧ (bootVDOM 0).vd "" = none
      ∧ (AddElement (constHost 0) (bootVDOM 0)
          [Element.mk "head" "" "" (some 1) "nope"]).state.vd ""
          = some (Element.mk "head" "" "" (some 1) "nope")
      ∧ (AddElement (constHost 0) (bootVDOM 0)
          [Element.mk "head" "" "" none "html"]).isPanic = false
      ∧ elementExists
          (AddElement (constHost 0) (bootVDOM 0)
            [Element.mk "head" "" "" none "html"]).state "html/head"
          = some "errJSValueNotFound:html/head"
      ∧ (AddElement (constHost 0)
          (AddElement (constHost 0) (bootVDOM 0)
            [Element.mk "head" "" "" none "html"]).state
          [Element.mk "x" "div" "" (some 3) "html/head"]).state.vd ""
          = some (Element.mk "x" "div" "" (some 3) "html/head")
      ∧ (AddElement (constHost 0)
          (AddElement (constHost 0) (bootVDOM 0)
            [Element.mk "head" "" "" none "html"]).state
          [Element.mk "x" "div" "" (some 3) "html/head"]).state.calls
          = (AddElement (constHost 0) (bootVDOM 0)
              [Element.mk "head" "" "" none "html"]).state.calls
            ++ [ { recv := JSRecv.document, method := "appendChild",
                   params := [JSParam.ref (some 3)] },
                 { recv := JSRecv.node 3, method := "setAttribute",
                   params := [JSParam.str "id", JSParam.str "x"] } ] := by
  decide

/-! ## Identifier allocation -/

/-- C4 (as stated, refuted): the store reached from the bootstrap store by
adding the record with identifier `".."` under `"html"` has the key `"."` with
a live handle; for a record with empty identifier and parent `"."` the
allocator yields `D = 2461770604`, the decimal FNV-1a hash of `".-0"`, but the
returned path is `D`, not `"./D"`. -/
theorem verifyElementId_path_is_cleaned :
    (AddElement (constHost 0) (bootVDOM 0)
        [Element.mk ".." "div" "" (some 1) "html"]).state.vd "."
        = some (Element.mk ".." "div" "" (some 1) "html")
      ∧ verifyElementId (constHost 0)
          (AddElement (constHost 0) (bootVDOM 0)
            [Element.mk ".." "div" "" (some 1) "html"]).state
          (Element.mk "" "div" "" (some 2) ".")
        = some (Element.mk "2461770604" "div" "" (some 2) ".", "2461770604", none)
      ∧ decimal (fnv32a (stringBytes ("." ++ "-" ++ decimal 0))) = "2461770604"
      ∧ "2461770604" ≠ "." ++ "/" ++ "2461770604" := by
  decide

/-- C4 (amended): for a record with empty `ID` whose parent path `P` is in the
store with a live handle reporting child count `n`, `verifyElementId` sets the
`ID` to `D`, the decimal string of the 32-bit FNV-1a hash of the bytes of
`P ++ "-" ++ decimal n`, and returns `path.Join(P, D)` with a nil error; that
path is `P ++ "/" ++ D` whenever `P` consists of plain path elements (as
`"html"` does).  A record with a non-empty `ID` keeps it and gets
`path.Join(P, ID)`.  `AddElement` then stores the record under the returned
path and leaves every other entry as it was. -/
theorem verifyElementId_allocates (h : Host) (v : VDOM) (ele pe : Element)
    (j : Handle) (D : String)
    (hp : v.vd ele.Parent = some pe) (hj : pe.jsValue = some j)
    (hid : ele.ID = "")
    (hD : D = decimal (fnv32a (stringBytes
            (ele.Parent ++ "-" ++ decimal (h.childElementCount v.calls j))))) :
    verifyElementId h v ele
        = some ({ ele with ID := D }, pathJoin ele.Parent D, none)
      ∧ (plainPath ele.Parent = true → pathJoin ele.Parent D = ele.Parent ++ "/" ++ D)
      ∧ (∀ id : String, id ≠ "" →
          verifyElementId h v { ele with ID := id }
            = some ({ ele with ID := id }, pathJoin ele.Parent id, none))
      ∧ (AddElement h v [ele]).state.vd (pathJoin ele.Parent D)
          = some { ele with ID := D }
      ∧ ∀ k, k ≠ pathJoin ele.Parent D → (AddElement h v [ele]).state.vd k = v.vd k := by
  have hv := verifyElementId_live h v ele pe j hp hj
  simp only [hid, if_true, newElementIDFromDOMPath, ← hD] at hv
  have hstep := addElementStep_live h v ele pe { ele with ID := D } j hp hj
    (by simp [hid, newElementIDFromDOMPath, hD])
  obtain ⟨hvd, _, _, _⟩ := hstep
  have hadd := AddElement_single h v ele
  refine ⟨hv, ?_, ?_, ?_, ?_⟩
  · intro hplain
    exact pathJoin_plain ele.Parent D hplain (by rw [hD]; exact plainPath_decimal _)
  · intro id hne
    have := verifyElementId_live h v { ele with ID := id } pe j hp hj
    simpa [hne] using this
  · rw [hadd, hvd]
    simp
  · intro k hk
    rw [hadd, hvd]
    simp [hk]

/-- Concrete instance: the root at `"html"` reports 2
children and the record has type `div` and no `ID`; the allocated `ID` is
`2102051119`, the path `"html/2102051119"`, and `"html"` stays in the store. -/
theorem verifyElementId_allocates_witness :
    (bootVDOM 0).vd (Element.mk "" "div" "" (some 1) "html").Parent = some (rootElement 0)
      ∧ (rootElement 0).jsValue = some 0
      ∧ (Element.mk "" "div" "" (some 1) "html").ID = ""
      ∧ "2102051119" = decimal (fnv32a (stringBytes ("html" ++ "-" ++ decimal 2)))
      ∧ plainPath "html" = true
      ∧ pathJoin "html" "2102051119" = "html/2102051119"
      ∧ (AddElement (constHost 2) (bootVDOM 0)
          [Element.mk "" "div" "" (some 1) "html"]).state.vd "html"
          = some (rootElement 0)
      ∧ (verifyElementId (constHost 2) (bootVDOM 0) (Element.mk "" "div" "" (some 1) "html")
          = some ({ Element.mk "" "div" "" (some 1) "html" with ID := "2102051119" },
              pathJoin (Element.mk "" "div" "" (some 1) "html").Parent "2102051119", none)
        ∧ (plainPath (Element.mk "" "div" "" (some 1) "html").Parent = true →
            pathJoin (Element.mk "" "div" "" (some 1) "html").Parent "2102051119"
              = (Element.mk "" "div" "" (some 1) "html").Parent ++ "/" ++ "2102051119")
        ∧ (∀ id : String, id ≠ "" →
            verifyElementId (constHost 2) (bootVDOM 0)
                { Element.mk "" "div" "" (some 1) "html" with ID := id }
              = some ({ Element.mk "" "div" "" (some 1) "html" with ID := id },
                  pathJoin (Element.mk "" "div" "" (some 1) "html").Parent id, none))
        ∧ (AddElement (constHost 2) (bootVDOM 0)
            [Element.mk "" "div" "" (some 1) "html"]).state.vd
              (pathJoin (Element.mk "" "div" "" (some 1) "html").Parent "2102051119")
            = some { Element.mk "" "div" "" (some 1) "html" with ID := "2102051119" }
        ∧ ∀ k, k ≠ pathJoin (Element.mk "" "div" "" (some 1) "html").Parent "2102051119" →
            (AddElement (constHost 2) (bootVDOM 0)
              [Element.mk "" "div" "" (some 1) "html"]).state.vd k = (bootVDOM 0).vd k) :=
  ⟨by decide, rfl, rfl, by decide, by decide, by decide, by decide,
    verifyElementId_allocates (constHost 2) (bootVDOM 0)
      (Element.mk "" "div" "" (some 1) "html") (rootElement 0) 0 "2102051119"
      (by decide) rfl rfl (by decide)⟩

/-! ## Path derivability -/

/-- C5 (as stated, refuted): adding the record with identifier `"menu/"`
under `"html"` to the bootstrap store reaches a store in which that non-root
record is stored under `"html/menu"`, which is not its parent path, a slash
and its identifier (`"html/menu/"`). -/
theorem Reachable_key_not_slash_concat :
    Reachable 0 (AddElement (constHost 0) (bootVDOM 0)
        [Element.mk "menu/" "div" "" (some 1) "html"]).state
      ∧ (AddElement (constHost 0) (bootVDOM 0)
          [Element.mk "menu/" "div" "" (some 1) "html"]).state.vd "html/menu"
          = some (Element.mk "menu/" "div" "" (some 1) "html")
      ∧ Element.mk "menu/" "div" "" (some 1) "html" ≠ rootElement 0
      ∧ "html/menu" ≠ (Element.mk "menu/" "div" "" (some 1) "html").Parent ++ "/"
          ++ (Element.mk "menu/" "div" "" (some 1) "html").ID :=
  ⟨Reachable.add _ _ _ Reachable.boot, by decide, by decide, by decide⟩

/-- C5 (amended): in every store reachable from the bootstrap store by
`AddElement` calls, every record stored under a non-empty key is stored under
`path.Join(r.Parent, r.ID)`, the cleaned slash-join of its parent path and its
identifier; that key is `r.Parent ++ "/" ++ r.ID` whenever the parent path and
the identifier consist of plain path elements (non-empty, not `.`, not `..`).
Entries under the empty key are not covered. -/
theorem Reachable_key_is_pathJoin (g : Handle) (v : VDOM) (hr : Reachable g v)
    (k : String) (r : Element) (hk : v.vd k = some r) (hne : k ≠ "") :
    k = pathJoin r.Parent r.ID
      ∧ (plainPath r.Parent = true → plainPath r.ID = true →
          k = r.Parent ++ "/" ++ r.ID) := by
  have hkey := Reachable_keys g v hr k r hk hne
  refine ⟨hkey, fun hP hI => ?_⟩
  rw [hkey]
  exact pathJoin_plain r.Parent r.ID hP hI

/-- Concrete instance: the store after one allocation
under the root. -/
theorem Reachable_key_is_pathJoin_witness :
    Reachable 0 (AddElement (constHost 2) (bootVDOM 0)
        [Element.mk "" "div" "" (some 1) "html"]).state
      ∧ (AddElement (constHost 2) (bootVDOM 0)
          [Element.mk "" "div" "" (some 1) "html"]).state.vd "html/2102051119"
          = some (Element.mk "2102051119" "div" "" (some 1) "html")
      ∧ "html/2102051119" ≠ ""
      ∧ plainPath "html" = true
      ∧ plainPath "2102051119" = true
      ∧ ("html/2102051119"
            = pathJoin (Element.mk "2102051119" "div" "" (some 1) "html").Parent
                (Element.mk "2102051119" "div" "" (some 1) "html").ID
          ∧ (plainPath (Element.mk "2102051119" "div" "" (some 1) "html").Parent = true →
              plainPath (Element.mk "2102051119" "div" "" (some 1) "html").ID = true →
              "html/2102051119"
                = (Element.mk "2102051119" "div" "" (some 1) "html").Parent ++ "/"
                    ++ (Element.mk "2102051119" "div" "" (some 1) "html").ID)) :=
  ⟨Reachable.add _ _ _ Reachable.boot, by decide, by decide, by decide, by decide,
    Reachable_key_is_pathJoin 0 _ (Reachable.add (constHost 2) _
        [Element.mk "" "div" "" (some 1) "html"] Reachable.boot)
      "html/2102051119" (Element.mk "2102051119" "div" "" (some 1) "html")
      (by decide) (by decide)⟩

/-! ## References within a batch -/

/-- C6 (as stated, refuted): on the bootstrap store, where `"html/a"` is not a
key, the batch `[a, b]` with `b.Parent = "html/a"` runs without panic; when
`b` is processed `elementExists "html/a"` succeeds, both records are
committed, and no line is logged, so no `NotFound` is reported. -/
theorem AddElement_forward_reference_resolved :
    (bootVDOM 0).vd "html/a" = none
      ∧ (AddElement (constHost 0) (bootVDOM 0)
          [ Element.mk "a" "div" "" (some 1) "html",
            Element.mk "b" "div" "" (some 2) "html/a" ]).isPanic = false
      ∧ elementExists
          (addElementStep (constHost 0) (bootVDOM 0)
            (Element.mk "a" "div" "" (some 1) "html")).state "html/a" = none
      ∧ (AddElement (constHost 0) (bootVDOM 0)
          [ Element.mk "a" "div" "" (some 1) "html",
            Element.mk "b" "div" "" (some 2) "html/a" ]).state.vd "html/a"
          = some (Element.mk "a" "div" "" (some 1) "html")
      ∧ (AddElement (constHost 0) (bootVDOM 0)
          [ Element.mk "a" "div" "" (some 1) "html",
            Element.mk "b" "div" "" (some 2) "html/a" ]).state.vd "html/a/b"
          = some (Element.mk "b" "div" "" (some 2) "html/a")
      ∧ logLines (AddElement (constHost 0) (bootVDOM 0)
          [ Element.mk "a" "div" "" (some 1) "html",
            Element.mk "b" "div" "" (some 2) "html/a" ]).state.console = [] := by
  decide

/-- C6 (amended): within-batch references are resolved.  For every store and
every batch `[a, b]` where `a` has an explicit `ID`, a live handle and a
parent `P` that is in the store with a live handle, and `b` names as its
parent the path under which `a` is committed, `path.Join(P, a.ID)` (which is
`P ++ "/" ++ a.ID` when `P` and `a.ID` consist of plain path elements): `a` is
committed, `elementExists(b.Parent)` succeeds when `b` is processed, so
`verifyElementId` returns a nil error for `b`, and `b` is committed under
`path.Join(b.Parent, b.ID)` (`b.ID` as supplied, or as allocated when empty);
`a` is still at its path unless `b` was committed over it. -/
theorem AddElement_forward_reference (h : Host) (v : VDOM) (a b pe : Element)
    (j : Handle) (hp : v.vd a.Parent = some pe) (hj : pe.jsValue = some j)
    (ha : a.ID ≠ "") (hlive : a.jsValue ≠ none)
    (hb : b.Parent = pathJoin a.Parent a.ID) :
    (plainPath a.Parent = true → plainPath a.ID = true →
        b.Parent = a.Parent ++ "/" ++ a.ID)
      ∧ ∃ v1 b1,
          addElementStep h v a = Outcome.done v1
          ∧ v1.vd b.Parent = some a
          ∧ elementExists v1 b.Parent = none
          ∧ verifyElementId h v1 b = some (b1, pathJoin b.Parent b1.ID, none)
          ∧ b1.Parent = b.Parent ∧ b1.jsValue = b.jsValue
          ∧ (b.ID ≠ "" → b1 = b)
          ∧ (AddElement h v [a, b]).state.vd (pathJoin b.Parent b1.ID) = some b1
          ∧ (pathJoin b.Parent b1.ID ≠ b.Parent →
              (AddElement h v [a, b]).state.vd b.Parent = some a) := by
  refine ⟨fun hP hI => by rw [hb]; exact pathJoin_plain _ _ hP hI, ?_⟩
  obtain ⟨hvd1, _, _, hdone1⟩ :=
    addElementStep_live h v a pe a j hp hj (by simp [ha])
  obtain ⟨v1, hdone1⟩ := hdone1 (Or.inr (Or.inr hlive))
  rw [hdone1] at hvd1
  simp only [Outcome.state] at hvd1
  obtain ⟨ja, hja⟩ := Option.ne_none_iff_exists'.1 hlive
  have hpb : v1.vd b.Parent = some a := by
    rw [hvd1, hb]; simp
  obtain ⟨b1, hb1⟩ : ∃ b1 : Element, b1 = if b.ID = "" then
      { b with
        ID := newElementIDFromDOMPath
          (b.Parent ++ "-" ++ decimal (h.childElementCount v1.calls ja)) }
      else b := ⟨_, rfl⟩
  obtain ⟨hvd2, _, _, _⟩ := addElementStep_live h v1 b a b1 ja hpb hja hb1
  have hadd : AddElement h v [a, b] = addElementStep h v1 b := by
    rw [← AddElement_single h v1 b]
    simp [AddElement, hdone1]
  refine ⟨v1, b1, hdone1, hpb, ?_, verifyElementId_assigned h v1 b a b1 ja hpb hja hb1,
    ?_, ?_, ?_, ?_, ?_⟩
  · simp [elementExists, hpb, hja]
  · rw [hb1]; split <;> rfl
  · rw [hb1]; split <;> rfl
  · intro hne
    rw [hb1, if_neg hne]
  · rw [hadd, hvd2]; simp
  · intro hne
    rw [hadd, hvd2]
    simp only []
    rw [if_neg (Ne.symm hne)]
    exact hpb

/-- Concrete instance: `a` under `"html"`, `b` under
`"html/a"`, on the bootstrap store. -/
theorem AddElement_forward_reference_witness :
    (bootVDOM 0).vd (Element.mk "a" "div" "" (some 1) "html").Parent = some (rootElement 0)
      ∧ (rootElement 0).jsValue = some 0
      ∧ (Element.mk "a" "div" "" (some 1) "html").ID ≠ ""
      ∧ (Element.mk "a" "div" "" (some 1) "html").jsValue ≠ none
      ∧ (Element.mk "b" "div" "" (some 2) "html/a").Parent
          = pathJoin (Element.mk "a" "div" "" (some 1) "html").Parent
              (Element.mk "a" "div" "" (some 1) "html").ID
      ∧ ∃ v1 b1,
          addElementStep (constHost 0) (bootVDOM 0) (Element.mk "a" "div" "" (some 1) "html")
            = Outcome.done v1
          ∧ v1.vd (Element.mk "b" "div" "" (some 2) "html/a").Parent
              = some (Element.mk "a" "div" "" (some 1) "html")
          ∧ elementExists v1 (Element.mk "b" "div" "" (some 2) "html/a").Parent = none
          ∧ verifyElementId (constHost 0) v1 (Element.mk "b" "div" "" (some 2) "html/a")
              = some (b1,
                  pathJoin (Element.mk "b" "div" "" (some 2) "html/a").Parent b1.ID, none)
          ∧ b1.Parent = (Element.mk "b" "div" "" (some 2) "html/a").Parent
          ∧ b1.jsValue = (Element.mk "b" "div" "" (some 2) "html/a").jsValue
          ∧ ((Element.mk "b" "div" "" (some 2) "html/a").ID ≠ "" →
              b1 = Element.mk "b" "div" "" (some 2) "html/a")
          ∧ (AddElement (constHost 0) (bootVDOM 0)
              [ Element.mk "a" "div" "" (some 1) "html",
                Element.mk "b" "div" "" (some 2) "html/a" ]).state.vd
                (pathJoin (Element.mk "b" "div" "" (some 2) "html/a").Parent b1.ID)
              = some b1
          ∧ (pathJoin (Element.mk "b" "div" "" (some 2) "html/a").Parent b1.ID
                ≠ (Element.mk "b" "div" "" (some 2) "html/a").Parent →
              (AddElement (constHost 0) (bootVDOM 0)
                [ Element.mk "a" "div" "" (some 1) "html",
                  Element.mk "b" "div" "" (some 2) "html/a" ]).state.vd
                  (Element.mk "b" "div" "" (some 2) "html/a").Parent
                = some (Element.mk "a" "div" "" (some 1) "html")) :=
  ⟨by decide, rfl, by decide, by decide, by decide,
    (AddElement_forward_reference (constHost 0) (bootVDOM 0)
      (Element.mk "a" "div" "" (some 1) "html")
      (Element.mk "b" "div" "" (some 2) "html/a") (rootElement 0) 0
      (by decide) rfl (by decide) (by decide) (by decide)).2⟩

/-! ## Overwriting a committed path -/

/-- C7 (as stated, refuted): on a surface that answers its first two calls and
returns null from the third on, the record `a` is added under `"html"` without
any log line; a second record `a` under `"html"`, again with a live handle,
has a live parent and a computed path `"html/a"` that is already a key.
`AddElement` replaces the entry and returns, and it reports an error for that
record: `appendChild` returned null, so `errAppendElement` is logged. -/
theorem AddElement_overwrite_reports_null_result :
    (AddElement (nullAfter 2) (bootVDOM 0)
        [Element.mk "a" "div" "" (some 1) "html"]).isPanic = false
      ∧ elementExists
          (AddElement (nullAfter 2) (bootVDOM 0)
            [Element.mk "a" "div" "" (some 1) "html"]).state "html" = none
      ∧ (AddElement (nullAfter 2) (bootVDOM 0)
          [Element.mk "a" "div" "" (some 1) "html"]).state.vd "html/a"
          = some (Element.mk "a" "div" "" (some 1) "html")
      ∧ logLines (AddElement (nullAfter 2) (bootVDOM 0)
          [Element.mk "a" "div" "" (some 1) "html"]).state.console = []
      ∧ (AddElement (nullAfter 2)
          (AddElement (nullAfter 2) (bootVDOM 0)
            [Element.mk "a" "div" "" (some 1) "html"]).state
          [Element.mk "a" "span" "" (some 2) "html"]).isPanic = false
      ∧ (AddElement (nullAfter 2)
          (AddElement (nullAfter 2) (bootVDOM 0)
            [Element.mk "a" "div" "" (some 1) "html"]).state
          [Element.mk "a" "span" "" (some 2) "html"]).state.vd "html/a"
          = some (Element.mk "a" "span" "" (some 2) "html")
      ∧ logLines (AddElement (nullAfter 2)
          (AddElement (nullAfter 2) (bootVDOM 0)
            [Element.mk "a" "div" "" (some 1) "html"]).state
          [Element.mk "a" "span" "" (some 2) "html"]).state.console
          = ["errAppendElement:unexpectedNull: a null js value is not expected"] := by
  decide

/-- C7 (amended): silent overwrite.  On a surface whose calls do not return
null, for every store and every record with an existing, live parent whose
computed path is already a key of the store: `verifyElementId` returns a nil
error, `AddElement` logs nothing for the record, and afterwards the store maps
that path to the new record (with its `ID` as supplied, or as allocated when
empty); the set of keys is unchanged and every entry at any other path is
unchanged (for a record submitted without `ID`, this is stated for the entries
that do not hold that record itself, which is the one record whose `ID` the
call assigns).  The call returns when the record is `head` or `body` or has a
live handle of its own; with a nil handle the mirroring call panics after the
write, and the state it leaves is the one described. -/
theorem AddElement_overwrites_silently (h : Host) (v : VDOM)
    (ele pe ele1 old : Element) (j : Handle)
    (hp : v.vd ele.Parent = some pe) (hj : pe.jsValue = some j)
    (h1 : ele1 = if ele.ID = "" then
            { ele with
              ID := newElementIDFromDOMPath
                (ele.Parent ++ "-" ++ decimal (h.childElementCount v.calls j)) }
          else ele)
    (hold : v.vd (pathJoin ele.Parent ele1.ID) = some old)
    (hok : ∀ cs call, h.callReturnsNull cs call = false) :
    verifyElementId h v ele = some (ele1, pathJoin ele.Parent ele1.ID, none)
      ∧ (AddElement h v [ele]).state.console = v.console
      ∧ (AddElement h v [ele]).state.vd (pathJoin ele.Parent ele1.ID) = some ele1
      ∧ (∀ k, k ≠ pathJoin ele.Parent ele1.ID → (ele.ID = "" → v.vd k ≠ some ele) →
          (AddElement h v [ele]).state.vd k = v.vd k)
      ∧ (∀ k, ((AddElement h v [ele]).state.vd k).isSome = (v.vd k).isSome)
      ∧ ((ele1.ID = "head" ∨ ele1.ID = "body" ∨ ele.jsValue ≠ none)
          → (AddElement h v [ele]).isPanic = false) := by
  obtain ⟨hvd, _, hquiet, hdone⟩ := addElementStep_live h v ele pe ele1 j hp hj h1
  rw [AddElement_single h v ele]
  refine ⟨verifyElementId_assigned h v ele pe ele1 j hp hj h1, hquiet hok, ?_, ?_, ?_, ?_⟩
  · rw [hvd]; simp
  · intro k hk _
    rw [hvd]; simp [hk]
  · intro k
    rw [hvd]
    by_cases hk : k = pathJoin ele.Parent ele1.ID
    · simp [hk, hold]
    · simp [hk]
  · intro hl
    obtain ⟨v1, hv1⟩ := hdone hl
    rw [hv1]
    rfl

theorem bootVDOM_add_fresh (k : String) :
    (AddElement (constHost 2) (bootVDOM 0)
          [Element.mk "" "div" "" (some 1) "html"]).state.vd k
      ≠ some (Element.mk "" "span" "" (some 2) "html") := by
  have hvd := (addElementStep_live (constHost 2) (bootVDOM 0)
    (Element.mk "" "div" "" (some 1) "html") (rootElement 0)
    (Element.mk "2102051119" "div" "" (some 1) "html") 0 (by decide) rfl (by decide)).1
  rw [AddElement_single, hvd]
  simp only []
  split
  · decide
  · simp only [bootVDOM]
    split
    · decide
    · simp

/-- Concrete instance: the root reports 2 children, `"html/2102051119"` holds a
`div` whose `ID` was allocated, and a `span` without `ID`, held by no entry of
the store, is added under `"html"`: it is allocated the same `ID` and replaces
the `div`. -/
theorem AddElement_overwrites_silently_witness :
    (AddElement (constHost 2) (bootVDOM 0)
          [Element.mk "" "div" "" (some 1) "html"]).state.vd
        (Element.mk "" "span" "" (some 2) "html").Parent = some (rootElement 0)
      ∧ (rootElement 0).jsValue = some 0
      ∧ (AddElement (constHost 2) (bootVDOM 0)
          [Element.mk "" "div" "" (some 1) "html"]).state.vd
          (pathJoin (Element.mk "" "span" "" (some 2) "html").Parent
            (Element.mk "2102051119" "span" "" (some 2) "html").ID)
          = some (Element.mk "2102051119" "div" "" (some 1) "html")
      ∧ (∀ cs call, (constHost 2).callReturnsNull cs call = false)
      ∧ (∀ k, (AddElement (constHost 2) (bootVDOM 0)
          [Element.mk "" "div" "" (some 1) "html"]).state.vd k
            ≠ some (Element.mk "" "span" "" (some 2) "html"))
      ∧ (verifyElementId (constHost 2)
            (AddElement (constHost 2) (bootVDOM 0)
          [Element.mk "" "div" "" (some 1) "html"]).state
            (Element.mk "" "span" "" (some 2) "html")
          = some ((Element.mk "2102051119" "span" "" (some 2) "html"),
              pathJoin (Element.mk "" "span" "" (some 2) "html").Parent
                (Element.mk "2102051119" "span" "" (some 2) "html").ID, none)
        ∧ (AddElement (constHost 2)
            (AddElement (constHost 2) (bootVDOM 0)
          [Element.mk "" "div" "" (some 1) "html"]).state
            [(Element.mk "" "span" "" (some 2) "html")]).state.console
            = (AddElement (constHost 2) (bootVDOM 0)
          [Element.mk "" "div" "" (some 1) "html"]).state.console
        ∧ (AddElement (constHost 2)
            (AddElement (constHost 2) (bootVDOM 0)
          [Element.mk "" "div" "" (some 1) "html"]).state
            [(Element.mk "" "span" "" (some 2) "html")]).state.vd
              (pathJoin (Element.mk "" "span" "" (some 2) "html").Parent
                (Element.mk "2102051119" "span" "" (some 2) "html").ID)
            = some (Element.mk "2102051119" "span" "" (some 2) "html")
        ∧ (∀ k, k ≠ pathJoin (Element.mk "" "span" "" (some 2) "html").Parent
              (Element.mk "2102051119" "span" "" (some 2) "html").ID →
            ((Element.mk "" "span" "" (some 2) "html").ID = "" →
              (AddElement (constHost 2) (bootVDOM 0)
          [Element.mk "" "div" "" (some 1) "html"]).state.vd k
                ≠ some (Element.mk "" "span" "" (some 2) "html")) →
            (AddElement (constHost 2)
              (AddElement (constHost 2) (bootVDOM 0)
          [Element.mk "" "div" "" (some 1) "html"]).state
              [(Element.mk "" "span" "" (some 2) "html")]).state.vd k
              = (AddElement (constHost 2) (bootVDOM 0)
          [Element.mk "" "div" "" (some 1) "html"]).state.vd k)
        ∧ (∀ k, ((AddElement (constHost 2)
              (AddElement (constHost 2) (bootVDOM 0)
          [Element.mk "" "div" "" (some 1) "html"]).state
              [(Element.mk "" "span" "" (some 2) "html")]).state.vd k).isSome
            = ((AddElement (constHost 2) (bootVDOM 0)
          [Element.mk "" "div" "" (some 1) "html"]).state.vd k).isSome)
        ∧ (((Element.mk "2102051119" "span" "" (some 2) "html").ID = "head"
              ∨ (Element.mk "2102051119" "span" "" (some 2) "html").ID = "body"
              ∨ (Element.mk "" "span" "" (some 2) "html").jsValue ≠ none)
            → (AddElement (constHost 2)
                (AddElement (constHost 2) (bootVDOM 0)
          [Element.mk "" "div" "" (some 1) "html"]).state
                [(Element.mk "" "span" "" (some 2) "html")]).isPanic = false)) :=
  ⟨by decide, rfl, by decide, fun _ _ => rfl, bootVDOM_add_fresh,
    AddElement_overwrites_silently (constHost 2)
      (AddElement (constHost 2) (bootVDOM 0)
          [Element.mk "" "div" "" (some 1) "html"]).state
      (Element.mk "" "span" "" (some 2) "html") (rootElement 0)
      (Element.mk "2102051119" "span" "" (some 2) "html")
      (Element.mk "2102051119" "div" "" (some 1) "html") 0
      (by decide) rfl (by decide) (by decide) (fun _ _ => rfl)⟩

end Gouidom
